import Mathlib

/-!
Verification of the `defcon` bot (src/main.rs) against its specification.

The program scans recent wiki edit summaries, classifies each as a
revert-of-vandalism via keyword heuristics, converts the resulting
reverts-per-minute rate into a discrete alert level, and rewrites a status
page only when the level changed.

Modelling conventions:
* Rust strings are modelled as `List Char`.
* The Rust `f32` rate is modelled as `ℚ`.  Every finite `f32` is a rational
  and the breakpoints 2.0, 4.0, 6.0, 8.0 are exactly representable, so the
  comparisons in `rpm_to_level` coincide with the rational comparisons; the
  rate `count / 60` is never NaN.
* The regex character classes `\s` and `\d` are modelled on their ASCII
  fragments (`isSpaceCh`, `Char.isDigit`), which is what every claim and all
  wiki-relevant inputs exercise.
* Network and config effects are modelled by an environment `Env` recording
  the outcome of each external call; `runMain` replays `main`'s control flow
  over it, returning the run outcome and the list of submitted edits.
-/

/-- ASCII fragment of the regex class `\s` (Rust `regex` whitespace). -/
def isSpaceCh (c : Char) : Bool :=
  c = ' ' || c = '\t' || c = '\n' || c = '\r' || c = '\x0b' || c = '\x0c'

/-- Rust `u8::to_ascii_lowercase` on a single character: map `A`–`Z` to
`a`–`z`, leave everything else unchanged. -/
def asciiLowerChar (c : Char) : Char :=
  if 'A' ≤ c ∧ c ≤ 'Z' then Char.ofNat (c.toNat + 32) else c

/-- Rust `str::to_ascii_lowercase`. -/
def toAsciiLowercase (s : List Char) : List Char :=
  s.map asciiLowerChar

/-- `startsWithL needle hay`: `needle` is a prefix of `hay`. -/
def startsWithL : List Char → List Char → Bool
  | [], _ => true
  | _ :: _, [] => false
  | a :: as, b :: bs => a = b && startsWithL as bs

/-- Rust `str::contains(needle)`: `needle` occurs as a contiguous substring
of `hay`. -/
def containsStr (needle hay : List Char) : Bool :=
  match hay with
  | [] => startsWithL needle []
  | _ :: t => startsWithL needle hay || containsStr needle t

/-- `VANDALISM_KEYWORDS` from src/main.rs. -/
def VANDALISM_KEYWORDS : List (List Char) :=
  ["revert", "rv ", "long-term abuse", "long term abuse", "lta", "abuse",
   "rvv ", "undid"].map String.toList

/-- `NOT_VANDALISM_KEYWORDS` from src/main.rs. -/
def NOT_VANDALISM_KEYWORDS : List (List Char) :=
  ["uaa", "good faith", "agf", "unsourced", "unreferenced", "self",
   "speculat", "original research", "rv tag", "typo", "incorrect",
   "format"].map String.toList

/-- Helper for `SECTION_HEADER_RE`: find the leftmost `*/` in the input and
split the input into the part before it and the part after it; `none` when
no `*/` occurs. -/
def splitClose : List Char → Option (List Char × List Char)
  | [] => none
  | [_] => none
  | a :: b :: rest =>
    if a = '*' ∧ b = '/' then some ([], rest)
    else (splitClose (b :: rest)).map fun p => (a :: p.1, p.2)

/-- Whether a `*/` occurs somewhere in the input. -/
def hasClose : List Char → Bool
  | [] => false
  | [_] => false
  | a :: b :: rest => (a = '*' && b = '/') || hasClose (b :: rest)

/-- Whether a `/*` occurs somewhere in the input. -/
def hasOpen : List Char → Bool
  | [] => false
  | [_] => false
  | a :: b :: rest => (a = '/' && b = '*') || hasOpen (b :: rest)

/-- Try to match the regex `/\*[\s\S]+?\*/` at the start of the input
(Rust `regex` leftmost-first, lazy quantifier): the input must begin with
`/*`, the lazy `[\s\S]+?` consumes one mandatory content character, and
the match is closed by the first `*/` found strictly after that character
(so the zero-content `"/**/"` is not a match).  Returns the remainder
after the match. -/
def tryMatchAt : List Char → Option (List Char)
  | a :: b :: _ :: rest =>
    if a = '/' ∧ b = '*' then
      match splitClose rest with
      | some p => some p.2
      | none => none
    else none
  | _ => none

/-- `SECTION_HEADER_RE.replace(s, "")`: Rust `Regex::replace` removes only
the leftmost match of `/\*[\s\S]+?\*/`, leaving the rest of the string
untouched. -/
def stripFirstComment : List Char → List Char
  | [] => []
  | c :: rest =>
    match tryMatchAt (c :: rest) with
    | some remainder => remainder
    | none => c :: stripFirstComment rest

/-- The normalisation performed inside `is_revert_of_vandalism`: strip the
section-header comment, then ASCII-lowercase. -/
def normalizeSummary (s : List Char) : List Char :=
  toAsciiLowercase (stripFirstComment s)

/-- `is_revert_of_vandalism` from src/main.rs. -/
def is_revert_of_vandalism (edit_summary : List Char) : Bool :=
  let t := normalizeSummary edit_summary
  if NOT_VANDALISM_KEYWORDS.any (fun kwd => containsStr kwd t) then
    false
  else
    VANDALISM_KEYWORDS.any (fun kwd => containsStr kwd t)

/-- `INTERVAL_IN_MINS` from src/main.rs (`i64`). -/
def INTERVAL_IN_MINS : Int := 60

/-- The two timestamps sent in the `recentchanges` query, as seconds
(already truncated to whole seconds by `SecondsFormat::Secs`).  `clock i`
is the value of the `i`-th call to `Utc::now()` in `reverts_per_minute`:
the first builds `time_one_interval_ago` (the `rcend` bound), the second is
formatted directly as `rcstart`.  Returns `(rcstart, rcend)`. -/
def rcWindow (clock : Nat → Int) : Int × Int :=
  let time_one_interval_ago := clock 0 - INTERVAL_IN_MINS * 60
  (clock 1, time_one_interval_ago)

/-- Count of classified reverts in one page of recent changes (the body of
the `get_all` callback: filter by `is_revert_of_vandalism`, then count). -/
def pageRevertCount (page : List (List Char)) : Nat :=
  (page.filter fun edit => is_revert_of_vandalism edit).length

/-- The `try_fold(0, |x, y| x + y)` over the per-page counts produced by
`get_all`. -/
def num_reverts (pages : List (List (List Char))) : Nat :=
  pages.foldl (fun x page => x + pageRevertCount page) 0

/-- The pure core of `reverts_per_minute`: total count over all fetched
pages divided by `INTERVAL_IN_MINS`. -/
def reverts_per_minute (pages : List (List (List Char))) : ℚ :=
  (num_reverts pages : ℚ) / (INTERVAL_IN_MINS : ℚ)

/-- The full `reverts_per_minute` call: read the clock to build the query
window, run the paginated fetch with that fixed window, and fold the pages.
The window also appears in the result so that theorems can talk about the
bounds actually sent. -/
def revertsPerMinuteCall (E : Type) (clock : Nat → Int)
    (fetch : Int → Int → Except E (List (List (List Char)))) :
    Except E ((Int × Int) × ℚ) :=
  let w := rcWindow clock
  match fetch w.1 w.2 with
  | .error e => .error e
  | .ok pages => .ok (w, reverts_per_minute pages)

/-- `rpm_to_level` from src/main.rs. -/
def rpm_to_level (rpm : ℚ) : Nat :=
  if rpm ≤ 2 then 5
  else if rpm ≤ 4 then 4
  else if rpm ≤ 6 then 3
  else if rpm ≤ 8 then 2
  else 1

/-- Digit-string to number, as `str::parse` reads a decimal numeral. -/
def digitsToNat (ds : List Char) : Nat :=
  ds.foldl (fun n c => 10 * n + (c.toNat - '0'.toNat)) 0

/-- Try to match `LEVEL_RE` = `level\s*=\s*(\d+)` at the start of the
input: the literal `level`, optional whitespace, `=`, optional whitespace,
then a maximal nonempty digit run (the capture, which is returned). -/
def matchLevelAt (s : List Char) : Option (List Char) :=
  match s with
  | 'l' :: 'e' :: 'v' :: 'e' :: 'l' :: rest =>
    match rest.dropWhile isSpaceCh with
    | '=' :: r2 =>
      let ds := (r2.dropWhile isSpaceCh).takeWhile Char.isDigit
      if ds = [] then none else some ds
    | _ => none
  | _ => none

/-- `LEVEL_RE.captures(content)`: leftmost match wins; returns the digits
of capture group 1. -/
def findLevel : List Char → Option (List Char)
  | [] => none
  | c :: t =>
    match matchLevelAt (c :: t) with
    | some ds => some ds
    | none => findLevel t

/-- The `curr_level` computation in `main`: if `LEVEL_RE` matches, the
captured digits are parsed with `parse::<u8>().unwrap()` — `none` models
the panic when the value exceeds `u8::MAX` (255); if the pattern is absent
the level falls back to `0`. -/
def currLevelOf (content : List Char) : Option Nat :=
  match findLevel content with
  | some ds => if digitsToNat ds ≤ 255 then some (digitsToNat ds) else none
  | none => some 0

/-- Environment of one run of `main`: the outcome of each external call,
parameterised by the error type `E` (`Box<dyn Error>` in the source).
`setup` covers config loading, OAuth login and reading `report_page` (its
value); `pageRevision` is the `revid`/content pair extracted from the
status-page query (the JSON-shape `unwrap`s are folded into its success);
`rcFetch` is the paginated recent-changes fetch, a function of the
`(rcstart, rcend)` bounds sent; `tokenRes` is `get_token("csrf")`;
`submitRes` is the outcome of the edit POST. -/
structure Env (E : Type) where
  setup : Except E (List Char)
  pageRevision : Except E (Nat × List Char)
  clock : Nat → Int
  rcFetch : Int → Int → Except E (List (List (List Char)))
  tokenRes : Except E (List Char)
  submitRes : Except E Unit

/-- An edit submission as sent by `main` (the formatted `text` and
`summary` strings are determined by `newLevel` and `rpm`). -/
structure EditReq where
  title : List Char
  newLevel : Nat
  rpm : ℚ
  baserevid : Nat
  token : List Char
deriving DecidableEq

/-- How a run of `main` ends: normally, with a propagated error, or in a
panic (an `unwrap` failure). -/
inductive Outcome (E : Type) where
  | ok : Outcome E
  | err : E → Outcome E
  | panicked : Outcome E
deriving DecidableEq

/-- `main` from src/main.rs, replayed over an environment: returns the run
outcome and the list of edit submissions that were posted. -/
def runMain {E : Type} (env : Env E) : Outcome E × List EditReq :=
  match env.setup with
  | .error e => (.err e, [])
  | .ok report_page =>
    match env.pageRevision with
    | .error e => (.err e, [])
    | .ok (revid, curr_text) =>
      match currLevelOf curr_text with
      | none => (.panicked, [])
      | some curr_level =>
        match revertsPerMinuteCall E env.clock env.rcFetch with
        | .error e => (.err e, [])
        | .ok (_, rpm) =>
          let level := rpm_to_level rpm
          if curr_level ≠ level then
            match env.tokenRes with
            | .error e => (.err e, [])
            | .ok token =>
              let edit : EditReq :=
                { title := report_page, newLevel := level, rpm := rpm,
                  baserevid := revid, token := token }
              match env.submitRes with
              | .error e => (.err e, [edit])
              | .ok _ => (.ok, [edit])
          else
            (.ok, [])


/-! ### Fixtures used by the witness theorems -/

/-- A page of fetched edit comments, one classified revert and one not. -/
def pageA : List (List Char) := ["revert spam".toList, "typo fix".toList]

/-- A second page of fetched edit comments. -/
def pageB : List (List Char) := ["undid vandalism".toList]

/-- A possible clock trace in which the second `Utc::now()` call lands one
second after the first. -/
def driftClock : Nat → Int := fun i => (i : Int)

/-- A clock trace whose two readings coincide. -/
def steadyClock : Nat → Int := fun _ => 1000

/-- A run environment whose published level already matches the computed
one (published 5; no recent reverts, so rate 0 and level 5). -/
def envC3 : Env Nat :=
  { setup := .ok "Template:Defcon".toList,
    pageRevision := .ok (7, "level = 5".toList),
    clock := fun _ => 0,
    rcFetch := fun _ _ => .ok [],
    tokenRes := .ok "csrf+".toList,
    submitRes := .ok () }

/-- A run environment whose published page has no `level = <digits>`
pattern. -/
def envC6 : Env Nat :=
  { setup := .ok "Template:Defcon".toList,
    pageRevision := .ok (7, "fresh page, nothing here".toList),
    clock := fun _ => 0,
    rcFetch := fun _ _ => .ok [],
    tokenRes := .ok "csrf+".toList,
    submitRes := .ok () }

/-- A run environment whose status-page revision fetch fails. -/
def envC8 : Env Nat :=
  { setup := .ok "Template:Defcon".toList,
    pageRevision := .error 404,
    clock := fun _ => 0,
    rcFetch := fun _ _ => .ok [],
    tokenRes := .ok "csrf+".toList,
    submitRes := .ok () }

/-! ### Helper lemmas about the section-header regex model -/

theorem hasClose_cons_false {a b : Char} {rest : List Char}
    (h : hasClose (a :: b :: rest) = false) :
    ¬(a = '*' ∧ b = '/') ∧ hasClose (b :: rest) = false := by
  simp only [hasClose, Bool.or_eq_false_iff, Bool.and_eq_false_iff] at h
  refine ⟨fun hc => ?_, h.2⟩
  rcases h.1 with h1 | h1 <;> simp [hc.1, hc.2] at h1

theorem splitClose_of_hasClose_false {s : List Char} (h : hasClose s = false) :
    splitClose s = none := by
  induction s with
  | nil => rfl
  | cons a t ih =>
    cases t with
    | nil => rfl
    | cons b rest =>
      obtain ⟨h1, h2⟩ := hasClose_cons_false h
      simp [splitClose, h1, ih h2]

theorem splitClose_append (pre post : List Char)
    (h : hasClose pre = false) :
    splitClose (pre ++ '*' :: '/' :: post) = some (pre, post) := by
  induction pre with
  | nil => simp [splitClose]
  | cons a t ih =>
    cases t with
    | nil =>
      have hne : ¬(a = '*' ∧ ('*' : Char) = '/') := fun hc => absurd hc.2 (by decide)
      simp [splitClose, hne]
    | cons b bs =>
      obtain ⟨h1, h2⟩ := hasClose_cons_false h
      have ih2 := ih h2
      simp only [List.cons_append] at ih2 ⊢
      simp [splitClose, h1, ih2]

theorem hasClose_tail {x : Char} {t : List Char}
    (h : hasClose (x :: t) = false) : hasClose t = false := by
  cases t with
  | nil => rfl
  | cons y ys => exact (hasClose_cons_false h).2

theorem hasOpen_cons_false {a b : Char} {rest : List Char}
    (h : hasOpen (a :: b :: rest) = false) :
    ¬(a = '/' ∧ b = '*') ∧ hasOpen (b :: rest) = false := by
  simp only [hasOpen, Bool.or_eq_false_iff, Bool.and_eq_false_iff] at h
  refine ⟨fun hc => ?_, h.2⟩
  rcases h.1 with h1 | h1 <;> simp [hc.1, hc.2] at h1

theorem hasOpen_tail {x : Char} {t : List Char}
    (h : hasOpen (x :: t) = false) : hasOpen t = false := by
  cases t with
  | nil => rfl
  | cons y ys => exact (hasOpen_cons_false h).2

theorem tryMatchAt_not_open {x y : Char} (t : List Char)
    (hxy : ¬(x = '/' ∧ y = '*')) : tryMatchAt (x :: y :: t) = none := by
  cases t with
  | nil => rfl
  | cons z zs => simp [tryMatchAt, hxy]

theorem tryMatchAt_of_hasClose_false {a : Char} {t : List Char}
    (h : hasClose (a :: t) = false) :
    tryMatchAt (a :: t) = none := by
  cases t with
  | nil => rfl
  | cons b rest =>
    cases rest with
    | nil => rfl
    | cons c rs =>
      have h3 : hasClose rs = false :=
        hasClose_tail (hasClose_tail (hasClose_tail h))
      simp [tryMatchAt, splitClose_of_hasClose_false h3]

theorem stripFirstComment_of_hasClose_false {s : List Char}
    (h : hasClose s = false) :
    stripFirstComment s = s := by
  induction s with
  | nil => rfl
  | cons a t ih =>
    have htail : hasClose t = false := by
      cases t with
      | nil => rfl
      | cons b rest => exact (hasClose_cons_false h).2
    simp [stripFirstComment, tryMatchAt_of_hasClose_false h, ih htail]

theorem stripFirstComment_removes_first (a b c : List Char)
    (ha : hasOpen a = false) (hb : b ≠ []) (hclose : hasClose b = false) :
    stripFirstComment (a ++ '/' :: '*' :: (b ++ '*' :: '/' :: c)) = a ++ c := by
  induction a with
  | nil =>
    obtain ⟨b0, b', rfl⟩ : ∃ b0 b', b = b0 :: b' := by
      cases b with
      | nil => exact absurd rfl hb
      | cons x xs => exact ⟨x, xs, rfl⟩
    have hs : splitClose (b' ++ '*' :: '/' :: c) = some (b', c) :=
      splitClose_append b' c (hasClose_tail hclose)
    have hm : tryMatchAt ('/' :: '*' :: b0 :: (b' ++ '*' :: '/' :: c)) = some c := by
      simp [tryMatchAt, hs]
    simp [stripFirstComment, hm]
  | cons x t ih =>
    have hm : tryMatchAt (x :: (t ++ '/' :: '*' :: (b ++ '*' :: '/' :: c))) = none := by
      cases t with
      | nil =>
        exact tryMatchAt_not_open ('*' :: (b ++ '*' :: '/' :: c))
          (fun hc => absurd hc.2 (by decide))
      | cons y ys =>
        exact tryMatchAt_not_open (ys ++ '/' :: '*' :: (b ++ '*' :: '/' :: c))
          (hasOpen_cons_false ha).1
    simp only [List.cons_append, stripFirstComment, List.append_eq, hm,
      ih (hasOpen_tail ha)]

/-! ### Claims -/

/-- Claim C1: `is_revert_of_vandalism` returns `true` iff the normalised
(comment-stripped, ASCII-lowercased) summary contains at least one
`VANDALISM_KEYWORDS` substring and no `NOT_VANDALISM_KEYWORDS` substring;
in particular any `NOT_VANDALISM_KEYWORDS` hit forces `false`. -/
theorem C1_classifier_iff (s : List Char) :
    is_revert_of_vandalism s = true ↔
      ((∃ kwd ∈ VANDALISM_KEYWORDS,
          containsStr kwd (normalizeSummary s) = true) ∧
       ∀ kwd ∈ NOT_VANDALISM_KEYWORDS,
          containsStr kwd (normalizeSummary s) = false) := by
  simp only [is_revert_of_vandalism]
  cases h : NOT_VANDALISM_KEYWORDS.any fun kwd => containsStr kwd (normalizeSummary s) with
  | false =>
    have hall : ∀ kwd ∈ NOT_VANDALISM_KEYWORDS,
        containsStr kwd (normalizeSummary s) = false := by
      intro kwd hk
      have hx := List.any_eq_false.mp h kwd hk
      simpa using hx
    simp only [h, Bool.false_eq_true, if_false, List.any_eq_true]
    constructor
    · intro hv
      exact ⟨hv, hall⟩
    · intro hv
      exact hv.1
  | true =>
    obtain ⟨kwd, hk, hks⟩ := List.any_eq_true.mp h
    simp only [h]
    constructor
    · intro hf
      simp at hf
    · rintro ⟨-, hall⟩
      have hx := hall kwd hk
      rw [hx] at hks
      cases hks

/-- Claim C2 counterexample: the claim says normalisation removes EVERY
`/* ... */` span and that an unterminated `/*` erases the whole remaining
text.  Both fail on the code, which calls `Regex::replace` (first match
only) with a pattern that requires a closing `*/`: on `"/*a*/X/*b*/"` the
second span survives (the claim predicts `"x"`), and on `"A/*b"` nothing
is removed (the claim predicts `"a"`). -/
theorem C2_counterexample :
    normalizeSummary "/*a*/X/*b*/".toList = "x/*b*/".toList ∧
    "x/*b*/".toList ≠ "x".toList ∧
    normalizeSummary "A/*b".toList = "a/*b".toList ∧
    "a/*b".toList ≠ "a".toList := by
  refine ⟨by decide, by decide, by decide, by decide⟩

/-- Claim C2 (amended): normalisation removes only the leftmost minimal
`/* ... */` span (with at least one character between the markers): for
any opener-free prefix `a`, span body `b` and tail `c`, the prefix and the
whole tail — including any further `/* ... */` spans in `c` — are kept
verbatim, and an input with no `*/` at all (in particular an unterminated
`/*`) is left entirely intact; the remainder is then ASCII-lowercased. -/
theorem C2_strip_leftmost_only (a b c : List Char) (ha : hasOpen a = false)
    (hb : b ≠ []) (hclose : hasClose b = false) :
    normalizeSummary (a ++ '/' :: '*' :: (b ++ '*' :: '/' :: c)) =
      toAsciiLowercase (a ++ c) ∧
    ∀ s : List Char, hasClose s = false → normalizeSummary s = toAsciiLowercase s := by
  constructor
  · unfold normalizeSummary
    rw [stripFirstComment_removes_first a b c ha hb hclose]
  · intro s hs
    unfold normalizeSummary
    rw [stripFirstComment_of_hasClose_false hs]

/-- Witness for `C2_strip_leftmost_only` at `a = "rv "`, `b = "a"`,
`c = "X/*b*/"` (so the input is `"rv /*a*/X/*b*/"`): the prefix and the
second span survive, lowercased. -/
theorem C2_strip_leftmost_only_witness :
    normalizeSummary
        ("rv ".toList ++ '/' :: '*' :: ("a".toList ++ '*' :: '/' :: "X/*b*/".toList)) =
      toAsciiLowercase ("rv ".toList ++ "X/*b*/".toList) ∧
    ∀ s : List Char, hasClose s = false → normalizeSummary s = toAsciiLowercase s :=
  C2_strip_leftmost_only "rv ".toList "a".toList "X/*b*/".toList
    (by decide) (by decide) (by decide)

/-- Claim C4: `rpm_to_level` tests the breakpoints 2, 4, 6, 8 in ascending
order with `≤`, first match winning, and the cited boundary values map as
stated. -/
theorem C4_level_breakpoints :
    (∀ r : ℚ,
      (r ≤ 2 → rpm_to_level r = 5) ∧
      (2 < r → r ≤ 4 → rpm_to_level r = 4) ∧
      (4 < r → r ≤ 6 → rpm_to_level r = 3) ∧
      (6 < r → r ≤ 8 → rpm_to_level r = 2) ∧
      (8 < r → rpm_to_level r = 1)) ∧
    rpm_to_level 2 = 5 ∧ rpm_to_level (20001 / 10000) = 4 ∧
    rpm_to_level 8 = 2 ∧ rpm_to_level (80001 / 10000) = 1 ∧
    rpm_to_level 0 = 5 := by
  constructor
  · intro r
    refine ⟨fun h1 => ?_, fun h1 h2 => ?_, fun h1 h2 => ?_, fun h1 h2 => ?_, fun h1 => ?_⟩ <;>
        simp only [rpm_to_level]
    · rw [if_pos h1]
    · rw [if_neg (not_le.mpr h1), if_pos h2]
    · rw [if_neg (not_le.mpr (show (2 : ℚ) < r by linarith)),
        if_neg (not_le.mpr h1), if_pos h2]
    · rw [if_neg (not_le.mpr (show (2 : ℚ) < r by linarith)),
        if_neg (not_le.mpr (show (4 : ℚ) < r by linarith)),
        if_neg (not_le.mpr h1), if_pos h2]
    · rw [if_neg (not_le.mpr (show (2 : ℚ) < r by linarith)),
        if_neg (not_le.mpr (show (4 : ℚ) < r by linarith)),
        if_neg (not_le.mpr (show (6 : ℚ) < r by linarith)),
        if_neg (not_le.mpr h1)]
  · refine ⟨?_, ?_, ?_, ?_, ?_⟩ <;> norm_num [rpm_to_level]

/-- Witness for `C4_level_breakpoints`: the second band at `r = 3`. -/
theorem C4_level_breakpoints_witness : rpm_to_level 3 = 4 :=
  (C4_level_breakpoints.1 3).2.1 (by norm_num) (by norm_num)

theorem foldl_add_pageRevertCount (pages : List (List (List Char))) (n : Nat) :
    pages.foldl (fun x page => x + pageRevertCount page) n =
      n + (pages.map pageRevertCount).sum := by
  induction pages generalizing n with
  | nil => simp
  | cons p ps ih => simp [ih, Nat.add_assoc]

theorem num_reverts_eq_sum (pages : List (List (List Char))) :
    num_reverts pages = (pages.map pageRevertCount).sum := by
  simpa using foldl_add_pageRevertCount pages 0

/-- Claim C5: the estimator folds every fetched page; its result is the sum
over all pages of the per-page count of classified reverts, divided by
`INTERVAL_IN_MINS` (60); with 3 pages the count is the sum over all 3. -/
theorem C5_pagination_complete (pages : List (List (List Char))) :
    reverts_per_minute pages = ((pages.map pageRevertCount).sum : ℚ) / 60 ∧
    ∀ p1 p2 p3 : List (List Char),
      reverts_per_minute [p1, p2, p3] =
        ((pageRevertCount p1 + pageRevertCount p2 + pageRevertCount p3 : ℕ) : ℚ) / 60 := by
  constructor
  · rw [reverts_per_minute, num_reverts_eq_sum]
    norm_num [INTERVAL_IN_MINS]
  · intro p1 p2 p3
    rw [reverts_per_minute, num_reverts_eq_sum]
    norm_num [INTERVAL_IN_MINS]
    ring

/-- Claim C9: the estimate is invariant under permutation of the page
sequence: page order does not affect the final count. -/
theorem C9_order_invariant (pages1 pages2 : List (List (List Char)))
    (h : List.Perm pages1 pages2) :
    reverts_per_minute pages1 = reverts_per_minute pages2 := by
  rw [reverts_per_minute, reverts_per_minute, num_reverts_eq_sum,
    num_reverts_eq_sum, (h.map pageRevertCount).sum_eq]

/-- Witness for `C9_order_invariant` on two concrete pages swapped. -/
theorem C9_order_invariant_witness :
    reverts_per_minute [pageA, pageB] = reverts_per_minute [pageB, pageA] :=
  C9_order_invariant [pageA, pageB] [pageB, pageA] (List.Perm.swap pageB pageA [])

/-- Claim C7 counterexample: the window bounds are NOT derived from a
single clock reading — `Utc::now()` is called once for `rcend` and again
for `rcstart` — so when the two readings differ by one second the
transmitted window is 3601 seconds, not exactly `INTERVAL_IN_MINS`
minutes. -/
theorem C7_counterexample :
    (rcWindow driftClock).1 - (rcWindow driftClock).2 ≠ INTERVAL_IN_MINS * 60 := by
  norm_num [rcWindow, driftClock, INTERVAL_IN_MINS]

/-- Claim C7 (amended): the window bounds are computed from two clock
readings, both taken once before any page is fetched and never re-evaluated
per page (the window returned by the call is `rcWindow clock`, fixed before
the paginated fetch runs); the window spans `INTERVAL_IN_MINS` minutes plus
the drift between the two readings, and is exactly `INTERVAL_IN_MINS`
minutes when the readings coincide. -/
theorem C7_window_two_readings {E : Type} (clock : Nat → Int)
    (fetch : Int → Int → Except E (List (List (List Char))))
    (w : Int × Int) (r : ℚ)
    (h : revertsPerMinuteCall E clock fetch = .ok (w, r)) :
    w = rcWindow clock ∧
    w.1 - w.2 = INTERVAL_IN_MINS * 60 + (clock 1 - clock 0) ∧
    (clock 1 = clock 0 → w.1 - w.2 = INTERVAL_IN_MINS * 60) := by
  have hw : w = rcWindow clock := by
    simp only [revertsPerMinuteCall] at h
    cases hf : fetch (rcWindow clock).1 (rcWindow clock).2 with
    | error e => rw [hf] at h; cases h
    | ok pages => rw [hf] at h; cases h; rfl
  subst hw
  refine ⟨rfl, ?_, fun he => ?_⟩ <;> simp [rcWindow, INTERVAL_IN_MINS] <;> omega

/-- Witness for `C7_window_two_readings` on a steady clock and a one-page
fetch. -/
theorem C7_window_two_readings_witness :
    rcWindow steadyClock = rcWindow steadyClock ∧
    (rcWindow steadyClock).1 - (rcWindow steadyClock).2 =
      INTERVAL_IN_MINS * 60 + (steadyClock 1 - steadyClock 0) ∧
    (steadyClock 1 = steadyClock 0 →
      (rcWindow steadyClock).1 - (rcWindow steadyClock).2 = INTERVAL_IN_MINS * 60) :=
  C7_window_two_readings steadyClock
    (fun _ _ => (Except.ok [] : Except Nat (List (List (List Char)))))
    (rcWindow steadyClock) (reverts_per_minute []) rfl

/-- Claim C10: when `LEVEL_RE` matches with a digit string whose value
exceeds 255, the `parse::<u8>().unwrap()` panics (modelled as `none`)
instead of falling back to 0 or returning an error, and the run dies with
no write; the fallback to 0 applies only when the pattern is absent, and a
matched value at most 255 parses successfully. -/
theorem C10_level_parse_panics (content ds : List Char) :
    (findLevel content = some ds → 255 < digitsToNat ds →
      currLevelOf content = none) ∧
    (findLevel content = some ds → digitsToNat ds ≤ 255 →
      currLevelOf content = some (digitsToNat ds)) ∧
    (findLevel content = none → currLevelOf content = some 0) ∧
    (∀ (E : Type) (env : Env E) (title : List Char) (revid : Nat),
      env.setup = .ok title → env.pageRevision = .ok (revid, content) →
      currLevelOf content = none → runMain env = (.panicked, [])) := by
  refine ⟨fun hf hv => ?_, fun hf hv => ?_, fun hf => ?_, fun E env title revid hs hp hc => ?_⟩
  · simp only [currLevelOf, hf]
    rw [if_neg (by omega)]
  · simp only [currLevelOf, hf]
    rw [if_pos hv]
  · simp only [currLevelOf, hf]
  · simp only [runMain, hs, hp, hc]

/-- Witness for `C10_level_parse_panics`: the page text `"level = 300"`
matches with value 300 > 255, so the parse panics. -/
theorem C10_level_parse_panics_witness :
    currLevelOf "level = 300".toList = none :=
  (C10_level_parse_panics "level = 300".toList "300".toList).1 (by decide) (by decide)

/-- Claim C3: when the freshly computed level equals the level parsed from
the published page, the run performs zero write invocations and ends
normally; a write is attempted only when the two levels differ. -/
theorem C3_idempotent_no_write {E : Type} (env : Env E) (title : List Char)
    (revid : Nat) (content : List Char) (l : Nat)
    (pages : List (List (List Char)))
    (hs : env.setup = .ok title)
    (hp : env.pageRevision = .ok (revid, content))
    (hc : currLevelOf content = some l)
    (hr : env.rcFetch (rcWindow env.clock).1 (rcWindow env.clock).2 = .ok pages) :
    (rpm_to_level (reverts_per_minute pages) = l →
      runMain env = (.ok, [])) ∧
    ((runMain env).2 ≠ [] → rpm_to_level (reverts_per_minute pages) ≠ l) := by
  have hcall : revertsPerMinuteCall E env.clock env.rcFetch =
      .ok (rcWindow env.clock, reverts_per_minute pages) := by
    simp only [revertsPerMinuteCall, hr]
  constructor
  · intro heq
    simp only [runMain, hs, hp, hc, hcall, heq, ne_eq, not_true_eq_false, if_false]
  · intro hw heq
    apply hw
    simp only [runMain, hs, hp, hc, hcall, heq, ne_eq, not_true_eq_false, if_false]

/-- Witness for `C3_idempotent_no_write`: published level 5, no recent
reverts (rate 0, level 5), so no write happens. -/
theorem C3_idempotent_no_write_witness : runMain envC3 = (.ok, []) :=
  (C3_idempotent_no_write envC3 "Template:Defcon".toList 7 "level = 5".toList 5 []
    rfl rfl (by decide) rfl).1
    (by norm_num [reverts_per_minute, num_reverts, INTERVAL_IN_MINS, rpm_to_level])

/-- Claim C6: when the published content has no `level = <digits>` pattern
the parsed level is 0; `rpm_to_level` only returns values in 1..5 (never
0); hence such a run submits exactly one edit. -/
theorem C6_first_run_update {E : Type} (env : Env E) (title : List Char)
    (revid : Nat) (content : List Char) (pages : List (List (List Char)))
    (token : List Char)
    (hs : env.setup = .ok title)
    (hp : env.pageRevision = .ok (revid, content))
    (hno : findLevel content = none)
    (hr : env.rcFetch (rcWindow env.clock).1 (rcWindow env.clock).2 = .ok pages)
    (ht : env.tokenRes = .ok token) :
    currLevelOf content = some 0 ∧
    (∀ r : ℚ, 1 ≤ rpm_to_level r ∧ rpm_to_level r ≤ 5 ∧ rpm_to_level r ≠ 0) ∧
    (runMain env).2.length = 1 := by
  have hc : currLevelOf content = some 0 := by
    simp only [currLevelOf, hno]
  have hb : ∀ r : ℚ, 1 ≤ rpm_to_level r ∧ rpm_to_level r ≤ 5 ∧ rpm_to_level r ≠ 0 := by
    intro r
    simp only [rpm_to_level]
    split <;> try simp
    split <;> try simp
    split <;> try simp
    split <;> simp
  have hcall : revertsPerMinuteCall E env.clock env.rcFetch =
      .ok (rcWindow env.clock, reverts_per_minute pages) := by
    simp only [revertsPerMinuteCall, hr]
  refine ⟨hc, hb, ?_⟩
  have hne : (0 : Nat) ≠ rpm_to_level (reverts_per_minute pages) :=
    fun h0 => (hb (reverts_per_minute pages)).2.2 h0.symm
  cases hsub : env.submitRes with
  | error e =>
    simp only [runMain, hs, hp, hc, hcall, ht, hsub, ne_eq, hne, not_false_eq_true,
      if_true, List.length_cons, List.length_nil]
  | ok u =>
    simp only [runMain, hs, hp, hc, hcall, ht, hsub, ne_eq, hne, not_false_eq_true,
      if_true, List.length_cons, List.length_nil]

/-- Witness for `C6_first_run_update`: unparseable page, so exactly one
edit is submitted. -/
theorem C6_first_run_update_witness :
    currLevelOf "fresh page, nothing here".toList = some 0 ∧
    (∀ r : ℚ, 1 ≤ rpm_to_level r ∧ rpm_to_level r ≤ 5 ∧ rpm_to_level r ≠ 0) ∧
    (runMain envC6).2.length = 1 :=
  C6_first_run_update envC6 "Template:Defcon".toList 7
    "fresh page, nothing here".toList [] "csrf+".toList rfl rfl (by decide) rfl rfl

/-- Claim C8: if the status-page revision fetch, the recent-changes fetch
during rate estimation, or the edit-token fetch fails, the run terminates
with that error unmodified and zero edit submissions (the write being the
final step of the run). -/
theorem C8_read_errors_abort {E : Type} (env : Env E) (e : E) :
    (∀ title, env.setup = .ok title → env.pageRevision = .error e →
      runMain env = (.err e, [])) ∧
    (∀ title revid content l, env.setup = .ok title →
      env.pageRevision = .ok (revid, content) → currLevelOf content = some l →
      env.rcFetch (rcWindow env.clock).1 (rcWindow env.clock).2 = .error e →
      runMain env = (.err e, [])) ∧
    (∀ title revid content l pages, env.setup = .ok title →
      env.pageRevision = .ok (revid, content) → currLevelOf content = some l →
      env.rcFetch (rcWindow env.clock).1 (rcWindow env.clock).2 = .ok pages →
      l ≠ rpm_to_level (reverts_per_minute pages) →
      env.tokenRes = .error e → runMain env = (.err e, [])) := by
  refine ⟨fun title hs hp => ?_, fun title revid content l hs hp hc hr => ?_,
    fun title revid content l pages hs hp hc hr hne ht => ?_⟩
  · simp only [runMain, hs, hp]
  · have hcall : revertsPerMinuteCall E env.clock env.rcFetch = .error e := by
      simp only [revertsPerMinuteCall, hr]
    simp only [runMain, hs, hp, hc, hcall]
  · have hcall : revertsPerMinuteCall E env.clock env.rcFetch =
        .ok (rcWindow env.clock, reverts_per_minute pages) := by
      simp only [revertsPerMinuteCall, hr]
    simp only [runMain, hs, hp, hc, hcall, ne_eq, hne, not_false_eq_true, if_true, ht]

/-- Witness for `C8_read_errors_abort`: a failing revision fetch aborts the
run with that error and no write. -/
theorem C8_read_errors_abort_witness : runMain envC8 = (.err 404, []) :=
  (C8_read_errors_abort envC8 404).1 "Template:Defcon".toList rfl rfl
